import Mathlib

/-!
Verification of the multi-agent TDD dispatch system.

A shallow embedding, in Lean 4, of the orchestration core of the
multi-agent TDD engine: issue-reference parsing, mention extraction,
agent-type inference, webhook signature validation, generated-code-block
extraction, context gathering, and the workflow state machine of
`AgentEngine.execute_workflow`.

Modelling conventions:
* Python strings are modelled by `String` / `List Char`; byte strings by
  `List Nat` (each entry a byte value).
* Python's `\w` character class is modelled at its ASCII core
  (letters, digits, underscore); every concrete input exercised below is
  ASCII, where the two notions agree.
* Each Python regex used by the source is hand-compiled to a recursive
  matcher that mirrors the regex engine's leftmost-match, greedy /
  lazy and backtracking behaviour on that particular pattern.
* External effects (git, subprocess, HTTP) are modelled by an explicit
  environment record supplying each call's outcome; a call that may raise
  an uncaught Python exception is given an `Except String` result, the
  error carrying the exception's message.
-/

namespace TDD

/-- ASCII core of Python's `\w` (regex word character): letter, digit or
underscore. -/
def isWordChar (c : Char) : Bool :=
  c.isAlpha || c.isDigit || c = '_'

/-- ASCII uppercase letter (regex class `[A-Z]`). -/
def isUpperAZ (c : Char) : Bool :=
  'A' ≤ c && c ≤ 'Z'

/-- ASCII letter (regex class `[A-Za-z]`). -/
def isLetterAZ (c : Char) : Bool :=
  ('A' ≤ c && c ≤ 'Z') || ('a' ≤ c && c ≤ 'z')

/-- ASCII digit (regex class `[0-9]` / `\d`). -/
def isDigit09 (c : Char) : Bool :=
  '0' ≤ c && c ≤ '9'

/-- Regex class `[A-Za-z0-9]` (alphanumeric, no underscore). -/
def isAlnum (c : Char) : Bool :=
  isLetterAZ c || isDigit09 c

/-- Regex class `[\w-]`: word character or hyphen. -/
def isWordOrHyphen (c : Char) : Bool :=
  isWordChar c || c = '-'

/-- Does the character list `p` occur as a contiguous run inside `s`?
Models Python's `in` operator on strings (substring containment). -/
def containsSub (s p : List Char) : Bool :=
  match s with
  | [] => p.isEmpty
  | _ :: rest => p.isPrefixOf s || containsSub rest p

/-! ## §4.2 MentionExtractor — `PayloadParser.find_agent_mentions`

Source (`src/webhook_server.py`): `re.findall(r'@(\w+)', comment_body)`
followed by prepending `@` to each captured group. -/

/-- Scan for every match of the regex `@(\w+)`: at each `'@'` that is
immediately followed by at least one word character, capture the maximal
word-character run and resume scanning after it (non-overlapping matches,
in order of occurrence), exactly as `re.findall` does.  The fuel argument
only makes the recursion structural; `scanMentions` supplies enough fuel
that it never runs out. -/
def scanMentionsF : Nat → List Char → List String
  | 0, _ => []
  | _ + 1, [] => []
  | fuel + 1, c :: rest =>
    if c = '@' then
      match rest.takeWhile isWordChar with
      | [] => scanMentionsF fuel rest
      | x :: xs =>
        String.mk (x :: xs) :: scanMentionsF fuel (rest.drop (x :: xs).length)
    else scanMentionsF fuel rest

/-- All matches of `@(\w+)` in `l`, in order. -/
def scanMentions (l : List Char) : List String :=
  scanMentionsF l.length l

/-- `PayloadParser.find_agent_mentions`: every captured `\w+` group,
re-prefixed with `@`, in order of occurrence. -/
def find_agent_mentions (comment_body : String) : List String :=
  (scanMentions comment_body.data).map (fun m => "@" ++ m)

/-! ## Agent-type inference — `_determine_agent_type`

Source (`src/presentation/api/slack_bot.py`): lowercase the text, then
test substring containment against three keyword lists in priority
order. -/

/-- ASCII lowering of one character, the ASCII core of `str.lower()`. -/
def toLowerAscii (c : Char) : Char :=
  if 'A' ≤ c && c ≤ 'Z' then Char.ofNat (c.toNat + 32) else c

/-- `_determine_agent_type`: case-insensitive substring match against the
keyword lists `['developer', 'dev', 'implement', 'code']`,
`['tester', 'test', 'qa']`, `['architect', 'architecture', 'design']`,
first matching list wins, otherwise `none`. -/
def determine_agent_type (text : String) : Option String :=
  let t := text.data.map toLowerAscii
  if ["developer", "dev", "implement", "code"].any
      (fun w => containsSub t w.data) then
    some "developer"
  else if ["tester", "test", "qa"].any (fun w => containsSub t w.data) then
    some "tester"
  else if ["architect", "architecture", "design"].any
      (fun w => containsSub t w.data) then
    some "architect"
  else
    none

/-- Some keyword of `ws` occurs (as a substring, case-insensitively) in
`text` — the specification-side reading of one keyword set. -/
def keywordHit (text : String) (ws : List String) : Prop :=
  ∃ w ∈ ws, containsSub (text.data.map toLowerAscii) w.data = true

/-! ## §4.1 IssueReferenceParser — `LinearIssueParser.validate_issue_id`

Source (`src/shared/utils/issue_parser.py`):
`bool(re.match(r'^[A-Z][A-Z0-9]*\-[1-9]\d*$', issue_id))`. -/

/-- The body of the anchored pattern `[A-Z][A-Z0-9]*-[1-9]\d*` matched
against the whole list: an uppercase letter, a maximal `[A-Z0-9]*` run
(the following `-` is not in the class, so the split is forced), a
hyphen, then a nonzero digit followed by digits up to the very end. -/
def issueIdCore (l : List Char) : Bool :=
  match l with
  | [] => false
  | c :: rest =>
    isUpperAZ c &&
    (let run := rest.takeWhile (fun d => isUpperAZ d || isDigit09 d)
     match rest.drop run.length with
     | '-' :: d :: ds => ('1' ≤ d && d ≤ '9') && ds.all isDigit09
     | _ => false)

/-- `LinearIssueParser.validate_issue_id`.  Python's `$` also matches just
before a single trailing newline, so a trailing `'\n'` is tolerated,
exactly as `re.match(...$...)` is. -/
def validate_issue_id (issue_id : String) : Bool :=
  let l := issue_id.data
  issueIdCore l ||
    (match l.getLast? with
     | some '\n' => issueIdCore (l.dropLast)
     | _ => false)

/-! ## §4.1 IssueReferenceParser — `LinearIssueParser.extract_linear_issue`

Source (`src/shared/utils/issue_parser.py`).  Three regexes:
1. `https://linear\.app/[\w-]+/issue/([\w-]+)` — full https URL;
2. `\blinear\.app/[\w-]+/issue/([\w-]+)` — URL without scheme,
   guarded by a word boundary before `linear`;
3. `\b([A-Za-z][A-Za-z0-9]*-\d+)\b` — bare identifier.
Patterns 1 and 2 are tried with `re.search`; only if both fail, every
match of pattern 3 is inspected in order and skipped when a window of the
text around it (100 characters before the match start to 50 after its
end) contains `https?://[^\s]+/[^\s]*?<id>[^\s]*`. -/

/-- Python's `\s` class at its ASCII core. -/
def isSpacePy (c : Char) : Bool :=
  c = ' ' || c = '\t' || c = '\n' || c = '\r' || c = '\x0b' || c = '\x0c'

/-- Match pattern 1 anchored at the head of `l`.  The `[\w-]+` workspace
segment cannot contain `/`, so the split before `/issue/` is forced: take
the maximal `[\w-]` run, require it nonempty, require the literal
`/issue/`, then capture the maximal nonempty `[\w-]` run as the group.
Returns `(group 0, group 1)`. -/
def tryFullUrl1At (l : List Char) : Option (List Char × List Char) :=
  if "https://linear.app/".data.isPrefixOf l then
    let rest := l.drop 19
    let ws := rest.takeWhile isWordOrHyphen
    if ws.isEmpty then none
    else
      let rest2 := rest.drop ws.length
      if "/issue/".data.isPrefixOf rest2 then
        let id := (rest2.drop 7).takeWhile isWordOrHyphen
        if id.isEmpty then none
        else some ("https://linear.app/".data ++ ws ++ "/issue/".data ++ id, id)
      else none
  else none

/-- `re.search` of pattern 1: first position where it matches. -/
def searchP1 : List Char → Option (List Char × List Char)
  | [] => none
  | l@(_ :: rest) =>
    match tryFullUrl1At l with
    | some r => some r
    | none => searchP1 rest

/-- Match pattern 2 (without its leading `\b`) anchored at the head. -/
def tryFullUrl2At (l : List Char) : Option (List Char × List Char) :=
  if "linear.app/".data.isPrefixOf l then
    let rest := l.drop 11
    let ws := rest.takeWhile isWordOrHyphen
    if ws.isEmpty then none
    else
      let rest2 := rest.drop ws.length
      if "/issue/".data.isPrefixOf rest2 then
        let id := (rest2.drop 7).takeWhile isWordOrHyphen
        if id.isEmpty then none
        else some ("linear.app/".data ++ ws ++ "/issue/".data ++ id, id)
      else none
  else none

/-- `re.search` of pattern 2.  `prevWord` records whether the character
just before the current position is a word character; the `\b` before
`linear` holds exactly when it is not (since `l` is a word character). -/
def searchP2 (prevWord : Bool) : List Char → Option (List Char × List Char)
  | [] => none
  | c :: rest =>
    match (if prevWord then none else tryFullUrl2At (c :: rest)) with
    | some r => some r
    | none => searchP2 (isWordChar c) rest

/-- One match of the bare-identifier pattern 3. `start`/`stop` are the
match's span in the whole text (`stop` exclusive). -/
structure BareMatch where
  start : Nat
  stop : Nat
  id : List Char

/-- Match pattern 3 anchored at the head of `l`: leading `\b` (previous
character not a word character), a letter, the maximal `[A-Za-z0-9]` run
(the following `-` is not in the class, so the split is forced), `-`, a
maximal nonempty digit run, and a trailing `\b` (next character, if any,
not a word character; shrinking the digit run cannot restore the boundary
because a digit would then precede a digit).  Returns the captured
identifier and the match length. -/
def tryBareAt (prevWord : Bool) (l : List Char) : Option (List Char × Nat) :=
  if prevWord then none
  else
    match l with
    | [] => none
    | c :: rest =>
      if isLetterAZ c then
        let run := rest.takeWhile isAlnum
        match rest.drop run.length with
        | '-' :: rest2 =>
          let ds := rest2.takeWhile isDigit09
          if ds.isEmpty then none
          else
            let boundaryOk :=
              match rest2.drop ds.length with
              | [] => true
              | d :: _ => !isWordChar d
            if boundaryOk then
              some (c :: (run ++ '-' :: ds), run.length + ds.length + 2)
            else none
        | _ => none
      else none

/-- `re.finditer` of pattern 3: all non-overlapping matches in order,
resuming after each match (whose last character is a digit, hence a word
character). -/
def scanBareF : Nat → Bool → Nat → List Char → List BareMatch
  | 0, _, _, _ => []
  | _ + 1, _, _, [] => []
  | fuel + 1, prevWord, idx, c :: rest =>
    match tryBareAt prevWord (c :: rest) with
    | some (id, len) =>
      ⟨idx, idx + len, id⟩ ::
        scanBareF fuel true (idx + len) ((c :: rest).drop len)
    | none => scanBareF fuel (isWordChar c) (idx + 1) rest

/-- All matches of the bare-identifier pattern, in order. -/
def scanBare (l : List Char) : List BareMatch :=
  scanBareF l.length false 0 l

/-- After `https?://`, the pattern `[^\s]+/[^\s]*?<id>[^\s]*` matches
within `l` iff, inside the maximal non-whitespace run at the head of `l`,
some `/` occurs at a position `≥ 1` with an occurrence of `id` somewhere
after it (the identifier contains no whitespace, so any occurrence lies
inside the run). -/
def existsSlashThenId (run id : List Char) : Bool :=
  match run with
  | [] => false
  | c :: rest => (c = '/' && containsSub rest id) || existsSlashThenId rest id

/-- The scheme `https?://` anchored at the head: on `https://` the
optional `s` must be taken (the next character is not `:`), so the match
length is forced. -/
def schemeLenAt (l : List Char) : Option Nat :=
  if "https://".data.isPrefixOf l then some 8
  else if "http://".data.isPrefixOf l then some 7
  else none

/-- `re.search(r'https?://[^\s]+/[^\s]*?' + re.escape(id) + r'[^\s]*', ctx)`:
some position carries the scheme, and after it a slash-delimited
path containing `id`. -/
def urlEmbedded : List Char → List Char → Bool
  | [], _ => false
  | l@(_ :: rest), id =>
    (match schemeLenAt l with
     | some n =>
       match (l.drop n).takeWhile (fun c => !isSpacePy c) with
       | [] => false
       | _ :: run => existsSlashThenId run id
     | none => false) ||
    urlEmbedded rest id

/-- The context window `text[max(0, start-100) : min(len, stop+50)]`
inspected for URL embedding (natural subtraction models the clamp at 0). -/
def contextWindow (l : List Char) (m : BareMatch) : List Char :=
  (l.drop (m.start - 100)).take (min l.length (m.stop + 50) - (m.start - 100))

/-- `LinearIssueParser.extract_linear_issue`: try the two full-URL
patterns in order (prefixing `https://` onto the matched text when it
lacks it), then return the first bare-identifier match whose context
window does not embed it in a URL; `(none, none)` if nothing is found. -/
def extract_linear_issue (text : String) : Option String × Option String :=
  let l := text.data
  match searchP1 l with
  | some (g0, g1) =>
    let full := if "https://".data.isPrefixOf g0 then g0
                else "https://".data ++ g0
    (some (String.mk g1), some (String.mk full))
  | none =>
  match searchP2 false l with
  | some (g0, g1) =>
    let full := if "https://".data.isPrefixOf g0 then g0
                else "https://".data ++ g0
    (some (String.mk g1), some (String.mk full))
  | none =>
  match (scanBare l).find? (fun m => !urlEmbedded (contextWindow l m) m.id) with
  | some m => (some (String.mk m.id), none)
  | none => (none, none)

/-! ## §4.6 ResponseCodeExtractor — `ClaudeAIClient.extract_code_blocks`

Source (`src/agent_engine.py`): `re.findall` of
`### File: ([^\n]+)\n三backtick(?:python|\w+)?\n(.*?)\n三backtick` with
`re.DOTALL` (the fence is three backticks; spelled out here to keep the
comment plain), then `strip()` of both groups and insertion into a dict
(later duplicate paths overwrite earlier values in place). -/

/-- Python's `str.strip()` at its ASCII core: drop whitespace from both
ends. -/
def stripChars (l : List Char) : List Char :=
  ((l.dropWhile isSpacePy).reverse.dropWhile isSpacePy).reverse

/-- Split `l` at the first occurrence of `pat`: the part before and the
part after it (the lazy `(.*?)` of the pattern stops at the first
closing fence). -/
def splitAtSub (pat : List Char) : List Char → Option (List Char × List Char)
  | [] => if pat.isEmpty then some ([], []) else none
  | c :: rest =>
    if pat.isPrefixOf (c :: rest) then some ([], (c :: rest).drop pat.length)
    else
      match splitAtSub pat rest with
      | some (before, after) => some (c :: before, after)
      | none => none

/-- The closing fence: newline followed by three backticks. -/
def closingFence : List Char := '\n' :: '`' :: '`' :: '`' :: []

/-- The opening of a block: the heading literal. -/
def fileHeading : List Char := "### File: ".data

/-- Match one heading+fence block anchored at the head of `l`.  The
heading path is `[^\n]+` (greedy, stopped by the mandatory newline and
nonempty); after the three-backtick line the optional
`(?:python|\w+)?` can, by backtracking, only consume the entire maximal
word-character run, after which the newline is mandatory; the lazy
body ends at the first `closingFence`.  Returns (path, body, rest of the
text after the match). -/
def tryBlockAt (l : List Char) : Option (List Char × List Char × List Char) :=
  if fileHeading.isPrefixOf l then
    let rest := l.drop fileHeading.length
    let path := rest.takeWhile (fun c => c ≠ '\n')
    if path.isEmpty then none
    else
      match rest.drop path.length with
      | '\n' :: afterNl =>
        if ('`' :: '`' :: '`' :: []).isPrefixOf afterNl then
          let afterTicks := afterNl.drop 3
          let lang := afterTicks.takeWhile isWordChar
          match afterTicks.drop lang.length with
          | '\n' :: body =>
            match splitAtSub closingFence body with
            | some (content, remaining) => some (path, content, remaining)
            | none => none
          | _ => none
        else none
      | _ => none
  else none

/-- All heading+fence matches in order (non-overlapping, resuming after
each match), as `re.findall` produces them. -/
def scanBlocksF : Nat → List Char → List (List Char × List Char)
  | 0, _ => []
  | _ + 1, [] => []
  | fuel + 1, c :: rest =>
    match tryBlockAt (c :: rest) with
    | some (path, content, remaining) =>
      (path, content) :: scanBlocksF fuel remaining
    | none => scanBlocksF fuel rest

/-- All heading+fence pairs of the text, in order of appearance. -/
def scanBlocks (l : List Char) : List (List Char × List Char) :=
  scanBlocksF l.length l

/-- Python-dict insertion semantics on an insertion-ordered association
list: an existing key keeps its position and gets the new value, a new
key is appended. -/
def dictInsert (d : List (String × String)) (k v : String) :
    List (String × String) :=
  if d.any (fun p => p.1 == k) then
    d.map (fun p => if p.1 == k then (p.1, v) else p)
  else d ++ [(k, v)]

/-- The heading+fence pairs of the text with both groups stripped, in
order of appearance. -/
def trimmedBlocks (response : String) : List (String × String) :=
  (scanBlocks response.data).map
    (fun pc => (String.mk (stripChars pc.1), String.mk (stripChars pc.2)))

/-- `ClaudeAIClient.extract_code_blocks`: scan all heading+fence pairs,
strip both groups, insert into the dict in order. -/
def extract_code_blocks (response : String) : List (String × String) :=
  (trimmedBlocks response).foldl (fun d pc => dictInsert d pc.1 pc.2) []

/-- Lookup in an insertion-ordered association list: the first binding
with the key (in a dict built by `dictInsert` keys are unique). -/
def getDict : List (String × String) → String → Option String
  | [], _ => none
  | p :: rest, k => if p.1 == k then some p.2 else getDict rest k

/-- The value of the last pair carrying the key, scanning left to right —
the "later duplicate paths overwrite earlier ones" reading of the
extraction contract. -/
def lastHit (pairs : List (String × String)) (k : String) : Option String :=
  pairs.foldl (fun acc p => if p.1 == k then some p.2 else acc) none

/-! ## §4.5 step 2 — `AgentEngine._gather_context`

Source (`src/agent_engine.py`): iterate five glob patterns; for each, add
every regular file whose read content is truthy (nonempty) and shorter
than 10,000 characters; after finishing a pattern, break out of the
pattern loop when the dict holds more than 20 entries. -/

/-- One file yielded by `rglob` for some pattern: its repo-relative
path, whether it is a regular file, and what
`GitManager.read_file_content` returns for it (`none` models a missing
or unreadable file). -/
structure FileEntry where
  path : String
  isFile : Bool
  content : Option String

/-- One iteration of the inner file loop: add the file to the dict when
it is a regular file whose read content is truthy (nonempty) and shorter
than 10,000 characters. -/
def gatherStep (d : List (String × String)) (e : FileEntry) :
    List (String × String) :=
  if e.isFile then
    match e.content with
    | some c =>
      if 0 < c.length && c.length < 10000 then dictInsert d e.path c else d
    | none => d
  else d

/-- The inner `for file_path in repo_path.rglob(pattern)` loop. -/
def gatherPattern : List (String × String) → List FileEntry →
    List (String × String)
  | d, [] => d
  | d, e :: fs => gatherPattern (gatherStep d e) fs

/-- The outer pattern loop with its between-patterns break
(`if len(context_files) > 20: break`). -/
def gatherLoop : List (List FileEntry) → List (String × String) →
    List (String × String)
  | [], d => d
  | fs :: rest, d =>
    if (gatherPattern d fs).length > 20 then gatherPattern d fs
    else gatherLoop rest (gatherPattern d fs)

/-- `AgentEngine._gather_context`, as a function of the per-pattern file
listings the filesystem supplies for the five glob patterns. -/
def gather_context (patternFiles : List (List FileEntry)) :
    List (String × String) :=
  gatherLoop patternFiles []

/-- The largest number of files any single pattern yields. -/
def maxPatternSize (patternFiles : List (List FileEntry)) : Nat :=
  patternFiles.foldr (fun fs m => max fs.length m) 0

/-! ## §4.5 WorkflowOrchestrator — `AgentEngine.execute_workflow`

Source (`src/agent_engine.py`).  External calls are supplied by an
environment record; a call that lets a Python exception escape is
modelled by `Except.error` carrying the exception's message (the
reporting helpers `_report_success` / `_report_test_failure` /
`_report_failure` each make exactly one `LinearAPIClient.add_comment`
call, which catches every exception internally and returns a boolean, so
reporting itself is total). -/

/-- The raw outcome of `subprocess.run` for the test command: a
completed process with exit code and captured streams, a timeout (whose
partial output the source discards), or an exception. -/
inductive TestOutcome where
  | completed (exitCode : Int) (stdout stderr : String)
  | timedOut (stdout stderr : String)
  | raised (msg : String)
deriving DecidableEq

/-- `TestExecutor.run_tests`: success iff exit code 0, output is the
combined `STDOUT:`/`STDERR:` text; timeout and exceptions map to
`false` with their fixed messages. -/
def run_tests : TestOutcome → Bool × String
  | .completed code out err =>
    (code == 0, "STDOUT:\n" ++ out ++ "\n\nSTDERR:\n" ++ err)
  | .timedOut _ _ => (false, "Test execution timed out after 5 minutes")
  | .raised msg => (false, "Failed to run tests: " ++ msg)

/-- The CLI arguments of one orchestrator run (`args.test_command` is
optional; Python treats the empty string as unset). -/
structure Args where
  issue_id : String
  agent_role : String
  task_description : String
  test_command : Option String

/-- The outcomes of the run's external calls: git checkout, the
filesystem listing behind `_gather_context`, the generation call, file
writes, the test subprocess, staging+commit, and push. -/
structure Env where
  checkout : String → Except String Bool
  rglobFiles : List (List FileEntry)
  generate : String → String → List (String × String) →
    Except String (Option String)
  writeFile : String → String → Except String Bool
  testRun : String → TestOutcome
  stageCommit : String → List String → Except String Bool
  pushRemote : String → Except String Bool

/-- The observable outward actions of one run: the two git mutations and
the single Linear report, with the payloads handed to each call. -/
inductive Action where
  | commitCall (message : String) (files : List String)
  | pushCall (branch : String)
  | reportSuccess (response : String) (files : List String) (testOutput : String)
  | reportTestFailure (testOutput : String)
  | reportFailure (message : String)
deriving DecidableEq

/-- Is the action one of the three outward report calls? -/
def isReport : Action → Bool
  | .reportSuccess _ _ _ => true
  | .reportTestFailure _ => true
  | .reportFailure _ => true
  | _ => false

/-- Is the action the staging/commit call? -/
def isCommitCall : Action → Bool
  | .commitCall _ _ => true
  | _ => false

/-- Is the action the push call? -/
def isPushCall : Action → Bool
  | .pushCall _ => true
  | _ => false

/-- Number of outward report calls in a trace. -/
def countReports (acts : List Action) : Nat :=
  (acts.filter isReport).length

/-- Python truthiness of an optional string. -/
def truthyOptStr : Option String → Bool
  | none => false
  | some s => !s.data.isEmpty

/-- The step-4 write loop: write each extracted block, collect the paths
whose write returned true, propagate an escaping exception. -/
def execWrites (env : Env) : List (String × String) → List String →
    Except String (List String)
  | [], acc => .ok acc.reverse
  | (p, c) :: rest, acc =>
    match env.writeFile p c with
    | .error e => .error e
    | .ok true => execWrites env rest (p :: acc)
    | .ok false => execWrites env rest acc

/-- The commit message built by `execute_workflow`. -/
def commitMessage (args : Args) (written : List String) : String :=
  "feat(" ++ args.issue_id ++ "): " ++ args.task_description ++
    "\n\nFiles modified: " ++ String.intercalate ", " written

/-- Step 6: stage+commit, then push, then the final report; each failed
boolean aborts with its distinct message, each escaping exception
carries the actions already performed. -/
def commitAndPush (env : Env) (args : Args) (branch response : String)
    (written : List String) (testOutput : String) :
    Except (List Action × String) (List Action) :=
  let msg := commitMessage args written
  match env.stageCommit msg written with
  | .error e => .error ([.commitCall msg written], e)
  | .ok false => .ok [.commitCall msg written, .reportFailure "Failed to commit changes"]
  | .ok true =>
    match env.pushRemote branch with
    | .error e => .error ([.commitCall msg written, .pushCall branch], e)
    | .ok false =>
      .ok [.commitCall msg written, .pushCall branch,
           .reportFailure "Failed to push changes to remote"]
    | .ok true =>
      .ok [.commitCall msg written, .pushCall branch,
           .reportSuccess response written testOutput]

/-- The `try:` body of `execute_workflow`: the linear pipeline with its
early-exit failure reports.  An `Except.error` is an exception escaping
the body, carrying the actions already performed and the exception's
message. -/
def workflowBody (env : Env) (args : Args) :
    Except (List Action × String) (List Action) :=
  let branch := "feature/" ++ args.issue_id
  match env.checkout branch with
  | .error e => .error ([], e)
  | .ok false => .ok [.reportFailure "Failed to checkout branch"]
  | .ok true =>
    let context := gather_context env.rglobFiles
    match env.generate args.agent_role args.task_description context with
    | .error e => .error ([], e)
    | .ok response? =>
      if !truthyOptStr response? then
        .ok [.reportFailure "Failed to generate code with Claude AI"]
      else
        let response := response?.getD ""
        let code_blocks := extract_code_blocks response
        if code_blocks.isEmpty then
          .ok [.reportFailure "No code blocks found in Claude response"]
        else
          match execWrites env code_blocks [] with
          | .error e => .error ([], e)
          | .ok written =>
            if written.isEmpty then
              .ok [.reportFailure "Failed to write any files"]
            else
              if truthyOptStr args.test_command then
                match run_tests (env.testRun (args.test_command.getD "")) with
                | (true, out) => commitAndPush env args branch response written out
                | (false, out) => .ok [.reportTestFailure out]
              else
                commitAndPush env args branch response written "No tests specified"

/-- `AgentEngine.execute_workflow`: run the body; the top-level
`except Exception` turns an escaping exception into one generic failure
report appended to the actions already performed. -/
def execute_workflow (env : Env) (args : Args) : List Action :=
  match workflowBody env args with
  | .ok acts => acts
  | .error (acts, e) => acts ++ [.reportFailure ("Unexpected error: " ++ e)]

/-! ### Concrete inputs used by the theorems below -/

/-- A single URL in which the bare identifier `AB-1` sits as a path
segment more than 100 characters after the scheme. -/
def longUrlText : String :=
  String.mk ("http://x.com/".data ++ List.replicate 101 'a' ++ "/AB-1".data)

/-- A generation response with two distinct heading+fence blocks (the
first with a language tag and whitespace around path and body). -/
def demoResp : String :=
  "## Analysis\nok\n\n### File:  a.py \n```python\nx = 1\n```\n\n### File: b.py\n```\ny = 2\n```"

/-- A response with three blocks, the third re-using the first path. -/
def demoRespDup : String :=
  "### File: a.py\n```python\nx = 1\n```\n### File: b.py\n```\ny = 2\n```\n### File: a.py\n```python\nz = 3\n```"

/-- Twenty-one distinct qualifying files yielded by a single glob
pattern. -/
def demoFiles : List FileEntry :=
  (List.range 21).map (fun i => ⟨String.mk ['f', Char.ofNat (65 + i)], true, some "x"⟩)

/-- An environment whose every step succeeds up to the test phase, where
the test subprocess times out having produced partial output. -/
def demoEnvTimeout : Env :=
  { checkout := fun _ => .ok true
  , rglobFiles := []
  , generate := fun _ _ _ => .ok (some "### File: a.py\n```python\nx = 1\n```")
  , writeFile := fun _ _ => .ok true
  , testRun := fun _ => .timedOut "partial output" ""
  , stageCommit := fun _ _ => .ok true
  , pushRemote := fun _ => .ok true }

/-- The arguments of the run exercising `demoEnvTimeout`. -/
def demoArgs : Args := ⟨"ABC-9", "Senior Developer", "do it", some "pytest"⟩

/-- An environment identical to `demoEnvTimeout` whose checkout raises. -/
def demoEnvRaise : Env :=
  { demoEnvTimeout with checkout := fun _ => .error "boom" }

/-- An environment identical to `demoEnvTimeout` whose test subprocess
completes with exit code 1. -/
def demoEnvFail : Env :=
  { demoEnvTimeout with testRun := fun _ => .completed 1 "boom" "tb" }

/-! ## §4.4 SignatureValidator — `WebhookValidator.validate_signature`

Source (`src/webhook_server.py`).  The HMAC-SHA256 primitive used through
`hmac.new(secret.encode('utf-8'), payload, hashlib.sha256).hexdigest()`
is embedded in full below (FIPS 180-4 / RFC 2104); byte strings are
`List Nat` with entries `< 256`, and the secret is represented by its
UTF-8 byte encoding (empty string ↔ `[]`). -/

/-- Truncate to a 32-bit word. -/
def w32 (x : Nat) : Nat := x % 4294967296

/-- 32-bit rotate right. -/
def rotr (n x : Nat) : Nat := w32 ((x >>> n) ||| (x <<< (32 - n)))

/-- Big-endian byte expansion, `n` bytes. -/
def toBytesBE : Nat → Nat → List Nat
  | 0, _ => []
  | n + 1, x => ((x >>> (8 * n)) % 256) :: toBytesBE n x

/-- SHA-256 round constants (FIPS 180-4 §4.2.2, written in decimal). -/
def sha256K : List Nat :=
  [1116352408, 1899447441, 3049323471, 3921009573, 961987163,
   1508970993, 2453635748, 2870763221, 3624381080, 310598401,
   607225278, 1426881987, 1925078388, 2162078206, 2614888103,
   3248222580, 3835390401, 4022224774, 264347078, 604807628,
   770255983, 1249150122, 1555081692, 1996064986, 2554220882,
   2821834349, 2952996808, 3210313671, 3336571891, 3584528711,
   113926993, 338241895, 666307205, 773529912, 1294757372,
   1396182291, 1695183700, 1986661051, 2177026350, 2456956037,
   2730485921, 2820302411, 3259730800, 3345764771, 3516065817,
   3600352804, 4094571909, 275423344, 430227734, 506948616,
   659060556, 883997877, 958139571, 1322822218, 1537002063,
   1747873779, 1955562222, 2024104815, 2227730452, 2361852424,
   2428436474, 2756734187, 3204031479, 3329325298]

/-- SHA-256 initial hash state (FIPS 180-4 §5.3.3, in decimal). -/
def sha256H0 : List Nat :=
  [1779033703, 3144134277, 1013904242, 2773480762, 1359893119,
   2600822924, 528734635, 1541459225]

/-- SHA-256 padding: `0x80`, zeros to 56 mod 64, then the 64-bit
big-endian bit length. -/
def sha256Pad (msg : List Nat) : List Nat :=
  let len := msg.length
  let padZeros := (119 - len % 64) % 64
  msg ++ 0x80 :: List.replicate padZeros 0 ++ toBytesBE 8 (len * 8)

/-- Split into 64-byte blocks (fuel makes the recursion structural). -/
def chunks64F : Nat → List Nat → List (List Nat)
  | 0, _ => []
  | _ + 1, [] => []
  | fuel + 1, l => l.take 64 :: chunks64F fuel (l.drop 64)

/-- Big-endian 32-bit words of a block. -/
def wordsOf : List Nat → List Nat
  | b0 :: b1 :: b2 :: b3 :: rest =>
    (((b0 * 256 + b1) * 256 + b2) * 256 + b3) :: wordsOf rest
  | _ => []

/-- Message-schedule extension step functions. -/
def sigma0 (x : Nat) : Nat := (rotr 7 x) ^^^ (rotr 18 x) ^^^ (x >>> 3)

/-- Second schedule function. -/
def sigma1 (x : Nat) : Nat := (rotr 17 x) ^^^ (rotr 19 x) ^^^ (x >>> 10)

/-- Extend the 16 block words to 64 schedule words. -/
def extendWords : Nat → List Nat → List Nat
  | 0, ws => ws
  | n + 1, ws =>
    let len := ws.length
    extendWords n
      (ws ++ [w32 (sigma1 (ws.getD (len - 2) 0) + ws.getD (len - 7) 0 +
                   sigma0 (ws.getD (len - 15) 0) + ws.getD (len - 16) 0)])

/-- The eight working variables of the compression function. -/
structure Sha256State where
  a : Nat
  b : Nat
  c : Nat
  d : Nat
  e : Nat
  f : Nat
  g : Nat
  h : Nat

/-- The 64 compression rounds, driven by the zipped schedule/constant
list. -/
def sha256Rounds : List (Nat × Nat) → Sha256State → Sha256State
  | [], s => s
  | (wi, ki) :: rest, s =>
    let S1 := (rotr 6 s.e) ^^^ (rotr 11 s.e) ^^^ (rotr 25 s.e)
    let ch := (s.e &&& s.f) ^^^ ((s.e ^^^ 4294967295) &&& s.g)
    let temp1 := w32 (s.h + S1 + ch + ki + wi)
    let S0 := (rotr 2 s.a) ^^^ (rotr 13 s.a) ^^^ (rotr 22 s.a)
    let maj := (s.a &&& s.b) ^^^ (s.a &&& s.c) ^^^ (s.b &&& s.c)
    let temp2 := w32 (S0 + maj)
    sha256Rounds rest
      ⟨w32 (temp1 + temp2), s.a, s.b, s.c, w32 (s.d + temp1), s.e, s.f, s.g⟩

/-- Process one 64-byte block. -/
def sha256Block (h : List Nat) (block : List Nat) : List Nat :=
  let ws := extendWords 48 (wordsOf block)
  let s0 : Sha256State :=
    ⟨h.getD 0 0, h.getD 1 0, h.getD 2 0, h.getD 3 0,
     h.getD 4 0, h.getD 5 0, h.getD 6 0, h.getD 7 0⟩
  let s := sha256Rounds (ws.zip sha256K) s0
  [w32 (h.getD 0 0 + s.a), w32 (h.getD 1 0 + s.b), w32 (h.getD 2 0 + s.c),
   w32 (h.getD 3 0 + s.d), w32 (h.getD 4 0 + s.e), w32 (h.getD 5 0 + s.f),
   w32 (h.getD 6 0 + s.g), w32 (h.getD 7 0 + s.h)]

/-- SHA-256 digest (32 bytes) of a byte string. -/
def sha256 (msg : List Nat) : List Nat :=
  let padded := sha256Pad msg
  let final := (chunks64F padded.length padded).foldl sha256Block sha256H0
  final.foldr (fun x acc => toBytesBE 4 x ++ acc) []

/-- Lowercase hex digit. -/
def hexDigit (n : Nat) : Char :=
  "0123456789abcdef".data.getD n '0'

/-- Lowercase hex encoding of a byte string (`.hexdigest()`). -/
def hexOfBytes (bs : List Nat) : List Char :=
  bs.foldr (fun b acc => hexDigit (b / 16) :: hexDigit (b % 16) :: acc) []

/-- HMAC-SHA256 (RFC 2104, block size 64). -/
def hmacSha256 (key msg : List Nat) : List Nat :=
  let k0 := if key.length > 64 then sha256 key else key
  let k1 := k0 ++ List.replicate (64 - k0.length) 0
  sha256 ((k1.map (fun b => b ^^^ 0x5c)) ++
          sha256 ((k1.map (fun b => b ^^^ 0x36)) ++ msg))

/-- `hmac.new(key, payload, hashlib.sha256).hexdigest()`. -/
def hmacSha256Hex (key msg : List Nat) : String :=
  String.mk (hexOfBytes (hmacSha256 key msg))

/-- Strip the optional `sha256=` tag from the front of the signature. -/
def stripSha256Tag (sig : String) : String :=
  if "sha256=".data.isPrefixOf sig.data then String.mk (sig.data.drop 7)
  else sig

/-- Functional behaviour of `hmac.compare_digest` on two strings: equality
(the constant-time execution profile has no functional content). -/
def compare_digest (a b : String) : Bool := a == b

/-- `WebhookValidator.validate_signature`.  `secret` is the validator's
`webhook_secret` field as UTF-8 bytes (`none` models Python `None`);
Python's `if not self.webhook_secret` is a truthiness test, so the empty
secret also disables validation, and `if not signature` likewise rejects
both `None` and the empty string. -/
def validate_signature (secret : Option (List Nat)) (payload : List Nat)
    (signature : Option String) : Bool :=
  match secret with
  | none => true
  | some key =>
    if key.isEmpty then true
    else
      match signature with
      | none => false
      | some sig =>
        if sig.data.isEmpty then false
        else compare_digest (hmacSha256Hex key payload) (stripSha256Tag sig)

example : validate_issue_id "ABC-123" = true := by decide
example : validate_issue_id "abc-123" = false := by decide
example : validate_issue_id "ABC-0" = false := by decide
example : validate_issue_id "A1B-123" = true := by decide
example : validate_issue_id "AB-12-34" = false := by decide

/-! ### Sanity evaluations of the embedding (mirroring the
repository's own unit-test expectations) -/

example : extract_linear_issue "Please check https://linear.app/myteam/issue/ABC-123 for details" =
    (some "ABC-123", some "https://linear.app/myteam/issue/ABC-123") := by decide
example : extract_linear_issue "Check linear.app/myteam/issue/DEF-456 please" =
    (some "DEF-456", some "https://linear.app/myteam/issue/DEF-456") := by decide
example : extract_linear_issue "Working on ABC-123 today" =
    (some "ABC-123", none) := by decide
example : extract_linear_issue "Related to ABC-123 and DEF-456 issues" =
    (some "ABC-123", none) := by decide
example : extract_linear_issue "ABC-123 is related to https://linear.app/team/issue/DEF-456" =
    (some "DEF-456", some "https://linear.app/team/issue/DEF-456") := by decide
example : extract_linear_issue "" = (none, none) := by decide
example : extract_linear_issue "Check www.linear.app or ABC123 (without hyphen)" =
    (none, none) := by decide
example : extract_linear_issue "Check https://notlinear.app/team/issue/ABC-123" =
    (none, none) := by decide
example : extract_linear_issue "Check https://linear.app/team/ABC-123" =
    (none, none) := by decide
example : extract_linear_issue "Working on Abc-123 and XYZ-999" =
    (some "Abc-123", none) := by decide
example : extract_linear_issue "ABCABC-123XYZ should not match, but ABC-123 should" =
    (some "ABC-123", none) := by decide
example : extract_linear_issue "Check https://linear.app/team/issue/ABC-123?tab=comments#comment-456" =
    (some "ABC-123", some "https://linear.app/team/issue/ABC-123") := by decide

example : find_agent_mentions "bob@example.com" = ["@example"] := by decide
example : find_agent_mentions "hi @developer and @tester" =
    ["@developer", "@tester"] := by decide
example : determine_agent_type "review" = none := by decide
example : determine_agent_type "@bot DESIGN the module" = some "architect" := by
  decide

/-! ## Helper lemmas -/

theorem countReports_append (a b : List Action) :
    countReports (a ++ b) = countReports a + countReports b := by
  simp [countReports, List.filter_append]

theorem commitAndPush_ok_count (env : Env) (args : Args)
    (branch response : String) (written : List String) (out : String)
    (acts : List Action)
    (h : commitAndPush env args branch response written out = .ok acts) :
    countReports acts = 1 := by
  simp only [commitAndPush] at h
  repeat' split at h
  all_goals first
    | exact Except.noConfusion h
    | (injection h with h2; subst h2; simp [countReports, isReport])

theorem commitAndPush_err_count (env : Env) (args : Args)
    (branch response : String) (written : List String) (out : String)
    (acts : List Action) (msg : String)
    (h : commitAndPush env args branch response written out = .error (acts, msg)) :
    countReports acts = 0 := by
  simp only [commitAndPush] at h
  repeat' split at h
  all_goals first
    | exact Except.noConfusion h
    | (injection h with h2; injection h2 with h3 h4; subst h3;
       simp [countReports, isReport])

theorem workflowBody_ok_count (env : Env) (args : Args) (acts : List Action)
    (h : workflowBody env args = .ok acts) :
    countReports acts = 1 := by
  simp only [workflowBody] at h
  repeat' split at h
  all_goals first
    | exact Except.noConfusion h
    | exact commitAndPush_ok_count _ _ _ _ _ _ _ h
    | (injection h with h2; subst h2; simp [countReports, isReport])

theorem workflowBody_err_count (env : Env) (args : Args) (acts : List Action)
    (msg : String)
    (h : workflowBody env args = .error (acts, msg)) :
    countReports acts = 0 := by
  simp only [workflowBody] at h
  repeat' split at h
  all_goals first
    | exact Except.noConfusion h
    | exact commitAndPush_err_count _ _ _ _ _ _ _ _ h
    | (injection h with h2; injection h2 with h3 h4; subst h3;
       simp [countReports, isReport])

theorem getDict_map_update_self (d : List (String × String)) (k v : String) :
    getDict (d.map (fun p => if p.1 == k then (p.1, v) else p)) k =
      if d.any (fun p => p.1 == k) then some v else none := by
  induction d with
  | nil => rfl
  | cons p rest IH =>
    by_cases h : p.1 = k
    · simp [getDict, h]
    · have hb : (p.1 == k) = false := by simp [h]
      simp only [List.map_cons, List.any_cons, hb, Bool.false_or]
      simp only [beq_iff_eq] at IH
      simp [getDict, h, IH]

theorem getDict_map_update_ne (d : List (String × String)) (q v k : String)
    (h : ¬ (q == k) = true) :
    getDict (d.map (fun p => if p.1 == q then (p.1, v) else p)) k =
      getDict d k := by
  have hqk : q ≠ k := by simpa using h
  induction d with
  | nil => rfl
  | cons p rest IH =>
    by_cases hp : p.1 = q
    · have hk : p.1 ≠ k := by rw [hp]; exact hqk
      simp only [beq_iff_eq] at IH
      simp [getDict, hp, hk, IH, hqk]
    · simp only [beq_iff_eq] at IH
      simp [getDict, hp, IH]

theorem getDict_append_single (d : List (String × String)) (q v k : String) :
    getDict (d ++ [(q, v)]) k =
      match getDict d k with
      | some w => some w
      | none => if q == k then some v else none := by
  induction d with
  | nil => simp [getDict]
  | cons p rest IH =>
    by_cases hp : p.1 = k <;> simp [getDict, hp, IH]

theorem getDict_eq_none_of_any_false (d : List (String × String)) (k : String)
    (h : d.any (fun p => p.1 == k) = false) :
    getDict d k = none := by
  induction d with
  | nil => rfl
  | cons p rest IH =>
    simp only [List.any_cons, Bool.or_eq_false_iff] at h
    simp only [getDict, IH h.2]
    rw [if_neg]
    simp [h.1]

theorem getDict_dictInsert (d : List (String × String)) (q v k : String) :
    getDict (dictInsert d q v) k = if q == k then some v else getDict d k := by
  unfold dictInsert
  by_cases hany : (d.any fun p => p.1 == q) = true
  · rw [if_pos hany]
    by_cases hqk : (q == k) = true
    · have : q = k := by simpa using hqk
      subst this
      rw [getDict_map_update_self, if_pos hany, if_pos hqk]
    · rw [getDict_map_update_ne d q v k hqk, if_neg hqk]
  · rw [if_neg hany]
    rw [getDict_append_single]
    by_cases hqk : (q == k) = true
    · have hq : q = k := by simpa using hqk
      subst hq
      rw [getDict_eq_none_of_any_false d q (Bool.eq_false_iff.mpr hany)]
    · cases hg : getDict d k <;> simp [hqk, hg]

theorem getDict_insertFold (pairs : List (String × String)) :
    ∀ (d : List (String × String)) (k : String),
      getDict (pairs.foldl (fun d pc => dictInsert d pc.1 pc.2) d) k =
        pairs.foldl (fun acc p => if p.1 == k then some p.2 else acc)
          (getDict d k) := by
  induction pairs with
  | nil => intro d k; rfl
  | cons a rest IH =>
    intro d k
    simp only [List.foldl_cons]
    rw [IH, getDict_dictInsert]

theorem mem_dictInsert (d : List (String × String)) (k v : String)
    (x : String × String) (h : x ∈ dictInsert d k v) :
    x ∈ d ∨ x.2 = v := by
  unfold dictInsert at h
  split at h
  · obtain ⟨y, hy, hfy⟩ := List.mem_map.mp h
    by_cases hk : (y.1 == k) = true
    · rw [if_pos hk] at hfy
      right
      rw [← hfy]
    · rw [if_neg hk] at hfy
      left
      rwa [← hfy]
  · rcases List.mem_append.mp h with h1 | h2
    · exact Or.inl h1
    · right
      simp at h2
      rw [h2]

theorem length_dictInsert (d : List (String × String)) (k v : String) :
    (dictInsert d k v).length ≤ d.length + 1 := by
  unfold dictInsert
  split
  · simp
  · simp

theorem mem_gatherStep (d : List (String × String)) (e : FileEntry)
    (x : String × String) (h : x ∈ gatherStep d e) :
    x ∈ d ∨ (0 < x.2.length ∧ x.2.length < 10000) := by
  unfold gatherStep at h
  split at h
  · split at h
    · rename_i c
      split at h
      · rename_i hlen
        rcases mem_dictInsert _ _ _ _ h with h1 | h2
        · exact Or.inl h1
        · right
          rw [h2]
          simpa using hlen
      · exact Or.inl h
    · exact Or.inl h
  · exact Or.inl h

theorem length_gatherStep (d : List (String × String)) (e : FileEntry) :
    (gatherStep d e).length ≤ d.length + 1 := by
  unfold gatherStep
  split
  · split
    · split
      · exact length_dictInsert _ _ _
      · omega
    · omega
  · omega

theorem mem_gatherPattern (fs : List FileEntry) :
    ∀ (d : List (String × String)) (x : String × String),
      x ∈ gatherPattern d fs →
      x ∈ d ∨ (0 < x.2.length ∧ x.2.length < 10000) := by
  induction fs with
  | nil => intro d x h; exact Or.inl h
  | cons e fs IH =>
    intro d x h
    rcases IH (gatherStep d e) x h with h1 | h2
    · exact mem_gatherStep d e x h1
    · exact Or.inr h2

theorem length_gatherPattern (fs : List FileEntry) :
    ∀ d : List (String × String),
      (gatherPattern d fs).length ≤ d.length + fs.length := by
  induction fs with
  | nil => intro d; simp [gatherPattern]
  | cons e fs IH =>
    intro d
    have h1 := IH (gatherStep d e)
    have h2 := length_gatherStep d e
    simp only [gatherPattern, List.length_cons]
    omega

theorem mem_gatherLoop (fss : List (List FileEntry)) :
    ∀ (d : List (String × String)) (x : String × String),
      x ∈ gatherLoop fss d →
      x ∈ d ∨ (0 < x.2.length ∧ x.2.length < 10000) := by
  induction fss with
  | nil => intro d x h; exact Or.inl h
  | cons fs rest IH =>
    intro d x h
    unfold gatherLoop at h
    split at h
    · exact mem_gatherPattern fs d x h
    · rcases IH (gatherPattern d fs) x h with h1 | h2
      · exact mem_gatherPattern fs d x h1
      · exact Or.inr h2

theorem length_gatherLoop (fss : List (List FileEntry)) :
    ∀ d : List (String × String), d.length ≤ 20 →
      (gatherLoop fss d).length ≤ 20 + maxPatternSize fss := by
  induction fss with
  | nil =>
    intro d hd
    simpa [gatherLoop, maxPatternSize] using hd
  | cons fs rest IH =>
    intro d hd
    have hstep := length_gatherPattern fs d
    have hmax : maxPatternSize (fs :: rest) = max fs.length (maxPatternSize rest) := rfl
    unfold gatherLoop
    split
    · rw [hmax]
      omega
    · rename_i hle
      have := IH (gatherPattern d fs) (by omega)
      rw [hmax]
      omega

theorem scanMentionsF_ne_nil (fuel : Nat) :
    ∀ (l r : List Char) (c : Char), isWordChar c = true → l.length < fuel →
      scanMentionsF fuel (l ++ '@' :: c :: r) ≠ [] := by
  induction fuel with
  | zero =>
    intro l r c _ hl
    exact absurd hl (Nat.not_lt_zero _)
  | succ n IH =>
    intro l r c hc hl
    cases l with
    | nil =>
      simp only [List.nil_append, scanMentionsF, if_pos rfl]
      rw [List.takeWhile_cons_of_pos (by simpa using hc)]
      simp
    | cons a l' =>
      simp only [List.cons_append, scanMentionsF]
      have hl' : l'.length < n := by
        simp only [List.length_cons] at hl
        omega
      by_cases ha : a = '@'
      · rw [if_pos ha]
        cases hrun : (l' ++ '@' :: c :: r).takeWhile isWordChar with
        | nil =>
          simp only [hrun]
          exact IH l' r c hc hl'
        | cons x xs =>
          simp only [hrun]
          simp
      · rw [if_neg ha]
        exact IH l' r c hc hl'

/-! ## Claim theorems -/

/-- C1: every run of `execute_workflow` performs exactly one outward
report call, whichever step failed or succeeded; and an exception
escaping the pipeline body is caught at the top and turned into one
generic failure report carrying the exception's message — the run itself
is a total function and never propagates an exception. -/
theorem C1_workflow_single_report (env : Env) (args : Args) :
    countReports (execute_workflow env args) = 1 ∧
    ∀ acts msg, workflowBody env args = .error (acts, msg) →
      execute_workflow env args =
        acts ++ [Action.reportFailure ("Unexpected error: " ++ msg)] := by
  constructor
  · unfold execute_workflow
    cases h : workflowBody env args with
    | ok acts => exact workflowBody_ok_count env args acts h
    | error p =>
      obtain ⟨acts, msg⟩ := p
      rw [countReports_append, workflowBody_err_count env args acts msg h]
      simp [countReports, isReport]
  · intro acts msg h
    unfold execute_workflow
    rw [h]

/-- C1 witness: on a run whose checkout call raises `boom`, the single
report is the generic failure carrying the message. -/
theorem C1_workflow_single_report_witness :
    countReports (execute_workflow demoEnvRaise demoArgs) = 1 ∧
    execute_workflow demoEnvRaise demoArgs =
      [] ++ [Action.reportFailure ("Unexpected error: " ++ "boom")] :=
  ⟨(C1_workflow_single_report demoEnvRaise demoArgs).1,
   (C1_workflow_single_report demoEnvRaise demoArgs).2 [] "boom" rfl⟩

/-- C2 (amended): when a (truthy) test command is configured, the run
reaches the test phase and the test run fails, the whole trace is one
test-failure report and nothing else — in particular no commit call and
no push call; the report's payload is the combined stdout+stderr when
the subprocess completed with a non-zero exit code, and the fixed
timeout message when it timed out. -/
theorem C2_test_failure_aborts (env : Env) (args : Args)
    (cmd resp : String) (written : List String)
    (code0 : Int) (out0 err0 : String)
    (h1 : env.checkout ("feature/" ++ args.issue_id) = .ok true)
    (h2 : env.generate args.agent_role args.task_description
            (gather_context env.rglobFiles) = .ok (some resp))
    (hr : resp ≠ "")
    (h3 : execWrites env (extract_code_blocks resp) [] = .ok written)
    (hw : written ≠ [])
    (hc : args.test_command = some cmd) (hc' : cmd ≠ "")
    (hf : (run_tests (env.testRun cmd)).1 = false) :
    execute_workflow env args =
      [Action.reportTestFailure (run_tests (env.testRun cmd)).2] ∧
    (run_tests (TestOutcome.completed code0 out0 err0)).2 =
      "STDOUT:\n" ++ out0 ++ "\n\nSTDERR:\n" ++ err0 ∧
    (run_tests (TestOutcome.timedOut out0 err0)).2 =
      "Test execution timed out after 5 minutes" ∧
    (execute_workflow env args).all
      (fun a => !isCommitCall a && !isPushCall a) = true := by
  have hre : resp.data.isEmpty = false := by
    cases hl : resp.data with
    | nil =>
      exfalso
      apply hr
      cases resp
      simp at hl
      subst hl
      rfl
    | cons a t => rfl
  have hcmdE : cmd.data.isEmpty = false := by
    cases hl : cmd.data with
    | nil =>
      exfalso
      apply hc'
      cases cmd
      simp at hl
      subst hl
      rfl
    | cons a t => rfl
  have hcbE : (extract_code_blocks resp).isEmpty = false := by
    cases hl : extract_code_blocks resp with
    | nil =>
      exfalso
      rw [hl] at h3
      simp [execWrites] at h3
      exact hw h3
    | cons a t => rfl
  have hwE : written.isEmpty = false := by
    cases hl : written with
    | nil => exact absurd hl hw
    | cons a t => rfl
  have hmain : execute_workflow env args =
      [Action.reportTestFailure (run_tests (env.testRun cmd)).2] := by
    rcases hrt : run_tests (env.testRun cmd) with ⟨b, out⟩
    rw [hrt] at hf
    simp at hf
    subst hf
    simp only [execute_workflow, workflowBody, truthyOptStr]
    simp [h1, h2, h3, hc, hrt, hre, hcmdE, hcbE, hwE]
  refine ⟨hmain, rfl, rfl, ?_⟩
  rw [hmain]
  rfl

/-- C2 witness: a run whose test subprocess exits with code 1 ends in
exactly the test-failure report carrying the combined stdout+stderr, and
its trace contains no commit and no push. -/
theorem C2_test_failure_aborts_witness :
    execute_workflow demoEnvFail demoArgs =
      [Action.reportTestFailure (run_tests (demoEnvFail.testRun "pytest")).2] ∧
    (run_tests (TestOutcome.completed 1 "boom" "tb")).2 =
      "STDOUT:\n" ++ "boom" ++ "\n\nSTDERR:\n" ++ "tb" ∧
    (run_tests (TestOutcome.timedOut "boom" "tb")).2 =
      "Test execution timed out after 5 minutes" ∧
    (execute_workflow demoEnvFail demoArgs).all
      (fun a => !isCommitCall a && !isPushCall a) = true :=
  C2_test_failure_aborts demoEnvFail demoArgs "pytest"
    "### File: a.py\n```python\nx = 1\n```" ["a.py"] 1 "boom" "tb"
    rfl rfl (by decide) rfl (by decide) rfl (by decide) rfl

/-- C2 counterexample: a run that reaches the test phase and times out
posts the fixed timeout message, not the combined stdout+stderr of the
test run (whose partial stdout `partial output` the source discards). -/
theorem C2_timeout_counterexample :
    execute_workflow demoEnvTimeout demoArgs =
      [Action.reportTestFailure "Test execution timed out after 5 minutes"] ∧
    demoEnvTimeout.testRun "pytest" = .timedOut "partial output" "" ∧
    "Test execution timed out after 5 minutes" ≠
      "STDOUT:\n" ++ "partial output" ++ "\n\nSTDERR:\n" ++ "" := by
  refine ⟨by decide, by decide, by decide⟩

/-- C3 (amended): every entry of the gathered context mapping has
content of fewer than 10,000 characters (and nonempty, by Python
truthiness); but the 20-file check runs only between glob patterns and
with a strict comparison, so the mapping can exceed 20 entries — what
holds is the bound 20 plus the size of a single pattern's file list. -/
theorem C3_context_bounds (fss : List (List FileEntry)) (p c : String)
    (hmem : (p, c) ∈ gather_context fss) :
    (0 < c.length ∧ c.length < 10000) ∧
    (gather_context fss).length ≤ 20 + maxPatternSize fss := by
  constructor
  · rcases mem_gatherLoop fss [] (p, c) hmem with h | h
    · simp at h
    · exact h
  · exact length_gatherLoop fss [] (by simp)

/-- C3 witness: the bounds instantiated on a concrete 21-file listing. -/
theorem C3_context_bounds_witness :
    ((0 : Nat) < "x".length ∧ "x".length < 10000) ∧
    (gather_context [demoFiles]).length ≤ 20 + maxPatternSize [demoFiles] :=
  C3_context_bounds [demoFiles] "fA" "x" (by decide)

/-- C3 counterexample: a single glob pattern yielding 21 qualifying
files produces a context mapping of 21 entries — the claimed hard cap of
20 files does not hold, because the break is checked only after a whole
pattern has been processed. -/
theorem C3_file_cap_counterexample :
    ¬ (gather_context [demoFiles]).length ≤ 20 := by decide

/-- C4 (amended): when neither full-link pattern matches, the extractor
returns the first bare-identifier match whose context window (100
characters before the match to 50 after) does not embed it in a URL, and
`(none, none)` when every match is embedded or none exists; an
identifier inside a short URL is skipped while a standalone one is
returned. -/
theorem C4_bare_scan (text : String)
    (h1 : searchP1 text.data = none) (h2 : searchP2 false text.data = none) :
    extract_linear_issue text =
      (match (scanBare text.data).find?
          (fun m => !urlEmbedded (contextWindow text.data m) m.id) with
        | some m => (some (String.mk m.id), none)
        | none => (none, none)) ∧
    extract_linear_issue "see https://ex.com/AB-1 and CD-2" =
      (some "CD-2", none) ∧
    extract_linear_issue "work on AB-1 now" = (some "AB-1", none) := by
  refine ⟨?_, by decide, by decide⟩
  simp only [extract_linear_issue, h1, h2]

/-- C4 witness: the bare-scan characterization instantiated on a text
with an embedded and a standalone identifier. -/
theorem C4_bare_scan_witness :
    extract_linear_issue "see https://ex.com/AB-1 and CD-2" =
      (match (scanBare "see https://ex.com/AB-1 and CD-2".data).find?
          (fun m =>
            !urlEmbedded
              (contextWindow "see https://ex.com/AB-1 and CD-2".data m) m.id) with
        | some m => (some (String.mk m.id), none)
        | none => (none, none)) ∧
    extract_linear_issue "see https://ex.com/AB-1 and CD-2" =
      (some "CD-2", none) ∧
    extract_linear_issue "work on AB-1 now" = (some "AB-1", none) :=
  C4_bare_scan "see https://ex.com/AB-1 and CD-2" (by decide) (by decide)

/-- C4 counterexample: in a URL whose scheme lies more than 100
characters before the bare identifier, the context window no longer
shows the `https?://` scheme, so the URL-embedded identifier IS returned
as a standalone match — refuting "a bare identifier occurring only
inside a URL is never returned". -/
theorem C4_url_window_counterexample :
    longUrlText.data =
      "http://x.com/".data ++ List.replicate 101 'a' ++ "/AB-1".data ∧
    extract_linear_issue longUrlText = (some "AB-1", none) :=
  ⟨rfl, by decide⟩

/-- C7: the extracted mapping realizes exactly the in-order
heading+fence pairs with both components stripped, later duplicate paths
overwriting earlier values (`lastHit` is the last-pair-wins reading);
and a response with two distinct blocks yields exactly those two keys
with the trimmed fenced bodies, a third block re-using the first path
overwriting its value in place. -/
theorem C7_extract_code_blocks_spec (resp : String) (k : String) :
    getDict (extract_code_blocks resp) k = lastHit (trimmedBlocks resp) k ∧
    extract_code_blocks demoResp = [("a.py", "x = 1"), ("b.py", "y = 2")] ∧
    extract_code_blocks demoRespDup =
      [("a.py", "z = 3"), ("b.py", "y = 2")] := by
  refine ⟨?_, by decide, by decide⟩
  unfold extract_code_blocks lastHit
  rw [getDict_insertFold]
  rfl

/-- C8 (amended): agent-type inference is a case-insensitive substring
test against the keyword sets {developer, dev, implement, code},
{tester, test, qa} and {architect, architecture, design} in that
priority order, with null when none occurs; the architect set does NOT
contain `review` or `reviewer`, so a request mentioning only reviewing
maps to null. -/
theorem C8_agent_type_keywords (text : String) :
    (determine_agent_type text = some "developer" ↔
      keywordHit text ["developer", "dev", "implement", "code"]) ∧
    (determine_agent_type text = some "tester" ↔
      (¬ keywordHit text ["developer", "dev", "implement", "code"] ∧
       keywordHit text ["tester", "test", "qa"])) ∧
    (determine_agent_type text = some "architect" ↔
      (¬ keywordHit text ["developer", "dev", "implement", "code"] ∧
       ¬ keywordHit text ["tester", "test", "qa"] ∧
       keywordHit text ["architect", "architecture", "design"])) ∧
    (determine_agent_type text = none ↔
      (¬ keywordHit text ["developer", "dev", "implement", "code"] ∧
       ¬ keywordHit text ["tester", "test", "qa"] ∧
       ¬ keywordHit text ["architect", "architecture", "design"])) ∧
    determine_agent_type "please review" = none ∧
    determine_agent_type "reviewer: take a look" = none := by
  have hHit : ∀ ws : List String,
      (ws.any fun w => containsSub (text.data.map toLowerAscii) w.data) = true ↔
        keywordHit text ws := by
    intro ws
    simp [keywordHit, List.any_eq_true]
  by_cases hd : (["developer", "dev", "implement", "code"].any
      fun w => containsSub (text.data.map toLowerAscii) w.data) = true
  · have hval : determine_agent_type text = some "developer" := by
      simp only [determine_agent_type]
      rw [if_pos hd]
    have hkd := (hHit _).mp hd
    refine ⟨?_, ?_, ?_, ?_, by decide, by decide⟩
    · simp [hval, hkd]
    · rw [hval]
      constructor
      · intro hcon
        exact absurd hcon (by decide)
      · rintro ⟨hnd, -⟩
        exact absurd hkd hnd
    · rw [hval]
      constructor
      · intro hcon
        exact absurd hcon (by decide)
      · rintro ⟨hnd, -, -⟩
        exact absurd hkd hnd
    · rw [hval]
      constructor
      · intro hcon
        exact absurd hcon (by decide)
      · rintro ⟨hnd, -, -⟩
        exact absurd hkd hnd
  · have hnd : ¬ keywordHit text ["developer", "dev", "implement", "code"] :=
      fun hk => hd ((hHit _).mpr hk)
    by_cases htst : (["tester", "test", "qa"].any
        fun w => containsSub (text.data.map toLowerAscii) w.data) = true
    · have hval : determine_agent_type text = some "tester" := by
        simp only [determine_agent_type]
        rw [if_neg hd, if_pos htst]
      have hkt := (hHit _).mp htst
      refine ⟨?_, ?_, ?_, ?_, by decide, by decide⟩
      · rw [hval]
        constructor
        · intro hcon
          exact absurd hcon (by decide)
        · intro hk
          exact absurd hk hnd
      · simp [hval, hnd, hkt]
      · rw [hval]
        constructor
        · intro hcon
          exact absurd hcon (by decide)
        · rintro ⟨-, hnt, -⟩
          exact absurd hkt hnt
      · rw [hval]
        constructor
        · intro hcon
          exact absurd hcon (by decide)
        · rintro ⟨-, hnt, -⟩
          exact absurd hkt hnt
    · have hnt : ¬ keywordHit text ["tester", "test", "qa"] :=
        fun hk => htst ((hHit _).mpr hk)
      by_cases harch : (["architect", "architecture", "design"].any
          fun w => containsSub (text.data.map toLowerAscii) w.data) = true
      · have hval : determine_agent_type text = some "architect" := by
          simp only [determine_agent_type]
          rw [if_neg hd, if_neg htst, if_pos harch]
        have hka := (hHit _).mp harch
        refine ⟨?_, ?_, ?_, ?_, by decide, by decide⟩
        · rw [hval]
          constructor
          · intro hcon
            exact absurd hcon (by decide)
          · intro hk
            exact absurd hk hnd
        · rw [hval]
          constructor
          · intro hcon
            exact absurd hcon (by decide)
          · rintro ⟨-, hk⟩
            exact absurd hk hnt
        · simp [hval, hnd, hnt, hka]
        · rw [hval]
          constructor
          · intro hcon
            exact absurd hcon (by decide)
          · rintro ⟨-, -, hk⟩
            exact absurd hka hk
      · have hna : ¬ keywordHit text ["architect", "architecture", "design"] :=
          fun hk => harch ((hHit _).mpr hk)
        have hval : determine_agent_type text = none := by
          simp only [determine_agent_type]
          rw [if_neg hd, if_neg htst, if_neg harch]
        refine ⟨?_, ?_, ?_, ?_, by decide, by decide⟩
        · rw [hval]
          constructor
          · intro hcon
            exact absurd hcon (by decide)
          · intro hk
            exact absurd hk hnd
        · rw [hval]
          constructor
          · intro hcon
            exact absurd hcon (by decide)
          · rintro ⟨-, hk⟩
            exact absurd hk hnt
        · rw [hval]
          constructor
          · intro hcon
            exact absurd hcon (by decide)
          · rintro ⟨-, -, hk⟩
            exact absurd hk hna
        · simp [hval, hnd, hnt, hna]

/-- C8 counterexample: the text `review` triggers no keyword of any set
in the code, so inference returns null, not the architect type the claim
asserts. -/
theorem C8_review_keyword_counterexample :
    determine_agent_type "review" = none ∧
    determine_agent_type "review" ≠ some "architect" ∧
    determine_agent_type "reviewer" = none := by
  refine ⟨by decide, by decide, by decide⟩

/-- C9: the mention scanner fires at every `@` immediately followed by a
word character, with no token-start requirement: any text containing
such a position yields a non-empty mention list, and the email-like
`bob@example.com` (which has no standalone handle token) yields the
mention `@example`. -/
theorem C9_mentions_inside_tokens (l r : List Char) (c : Char)
    (h : isWordChar c = true) :
    scanMentions (l ++ '@' :: c :: r) ≠ [] ∧
    find_agent_mentions "bob@example.com" = ["@example"] := by
  refine ⟨?_, by decide⟩
  unfold scanMentions
  apply scanMentionsF_ne_nil _ l r c h
  simp [List.length_append]

/-- C9 witness: the scanner applied inside the token `x@a`. -/
theorem C9_mentions_inside_tokens_witness :
    scanMentions (['x'] ++ '@' :: 'a' :: []) ≠ [] ∧
    find_agent_mentions "bob@example.com" = ["@example"] :=
  C9_mentions_inside_tokens ['x'] [] 'a' (by decide)

/-- C5: the full-link recognizer accepts hosts that merely end with the
tracker's domain after a non-word character — `sub.linear.app` and
`my-linear.app` both pass the `\b` guard, and the returned URL is a
fabricated `https://linear.app/...` address that never occurred in the
text.  This contradicts the source's own comment (the word boundary is
there to reject other hosts) and the spec's literal-host contract. -/
theorem C5_lookalike_host_accepted :
    extract_linear_issue "Check https://sub.linear.app/team/issue/ABC-1" =
      (some "ABC-1", some "https://linear.app/team/issue/ABC-1") ∧
    extract_linear_issue "Check https://my-linear.app/team/issue/ABC-1" =
      (some "ABC-1", some "https://linear.app/team/issue/ABC-1") := by
  refine ⟨by decide, by decide⟩

/-- C6: signature validation is vacuously true when no secret is
configured (`none`, or the empty secret — Python truthiness treats the
empty string as unconfigured); with a configured secret it rejects an
absent signature (`none`, or the empty string, likewise falsy); and
otherwise it returns exactly the constant-time comparison of the
hex-encoded HMAC-SHA256 of the raw body keyed by the secret against the
provided signature with its optional `sha256=` tag stripped — so any
signature differing from the correct digest (e.g. by a single bit)
yields false. -/
theorem C6_validate_signature_spec (payload anyPayload secret : List Nat)
    (sig : String) (anySig : Option String)
    (hs : secret ≠ []) (hsig : sig ≠ "") :
    validate_signature none anyPayload anySig = true ∧
    validate_signature (some []) anyPayload anySig = true ∧
    validate_signature (some secret) anyPayload none = false ∧
    validate_signature (some secret) anyPayload (some "") = false ∧
    validate_signature (some secret) payload (some sig) =
      compare_digest (hmacSha256Hex secret payload) (stripSha256Tag sig) := by
  have hsE : secret.isEmpty = false := by
    cases hl : secret with
    | nil => exact absurd hl hs
    | cons a t => rfl
  have hsigE : sig.data.isEmpty = false := by
    cases hl : sig.data with
    | nil =>
      exfalso
      apply hsig
      cases sig
      simp at hl
      subst hl
      rfl
    | cons a t => rfl
  refine ⟨rfl, rfl, ?_, ?_, ?_⟩
  · simp [validate_signature, hsE]
  · simp [validate_signature, hsE]
  · simp [validate_signature, hsE, hsigE]

/-- C6 witness: the validator's branches at concrete inputs. -/
theorem C6_validate_signature_spec_witness :
    validate_signature none [] (some "junk") = true ∧
    validate_signature (some []) [] (some "junk") = true ∧
    validate_signature (some [107]) [] none = false ∧
    validate_signature (some [107]) [] (some "") = false ∧
    validate_signature (some [107]) [1, 2] (some "deadbeef") =
      compare_digest (hmacSha256Hex [107] [1, 2]) (stripSha256Tag "deadbeef") :=
  C6_validate_signature_spec [1, 2] [] [107] "deadbeef" (some "junk")
    (by decide) (by decide)

/-- C10: the bare-identifier pattern accepts a lowercase prefix, the
validator does not: on `abc-123` the extractor returns an identifier
that `validate_issue_id` rejects. -/
theorem C10_lowercase_id_mismatch :
    extract_linear_issue "Please handle abc-123 soon" =
      (some "abc-123", none) ∧
    validate_issue_id "abc-123" = false := by
  refine ⟨by decide, by decide⟩

end TDD
